import Mathlib

/-!
Verification development for the banana-portraits repository.

The Python sources are shallowly embedded: SQLite rows become Lean
structures, database tables become lists of rows, remote API calls and
filesystem reads become explicit parameters carrying their outcome
(`Except` for calls that can raise), and Python keyword-argument binding
for `DatabaseManager.log_generation` is modelled explicitly so that a
call site omitting a required argument raises a TypeError, exactly as in
CPython.  Floating-point expressions that the code truncates with `int`
are modelled with exact rational arithmetic.
-/

/-! ## Generic helpers -/

/-- ASCII-range lower-casing, as used by the default SQLite `LIKE`
collation (case folding applies to the 26 ASCII letters only). -/
def lowerAscii (c : Char) : Char :=
  if 'A' ≤ c ∧ c ≤ 'Z' then Char.ofNat (c.toNat + 32) else c

/-- Byte-wise (code-point) strict order on character lists, the order the
SQLite BINARY collation uses on the ASCII ISO timestamps stored here. -/
def charListLt : List Char → List Char → Bool
  | [], [] => false
  | [], _ :: _ => true
  | _ :: _, [] => false
  | a :: as, b :: bs =>
    if a.toNat < b.toNat then true
    else if a.toNat = b.toNat then charListLt as bs
    else false

/-- String comparison used for `timestamp < ?` on TEXT columns. -/
def strLt (a b : String) : Bool := charListLt a.toList b.toList

/-! ## Database rows (src/src/database.py, table `generations`) -/

/-- A row of the `generations` table.  JSON-encoded columns
(`image_paths`, `image_urls`, `metadata`) are modelled by the decoded
values; for lists of strings and string maps the dump/parse round trip
is the identity, which is how every reader of the table treats them. -/
structure GenRecord where
  id : Nat
  timestamp : String
  prompt : String
  base_model : String
  finetuned_model : Option String
  steps : Option Int
  image_size : Option String
  num_images : Int
  seed : Option Int
  image_paths : List String
  image_urls : List String
  generation_time : Option Rat
  success : Bool
  error_message : Option String
  metadata : List (String × String)
deriving DecidableEq

/-! ## API result values (the remote service's response dictionaries) -/

/-- The parts of a remote API response that `log_generation` reads:
the `images` list (already projected to its `url` fields), the `seed`
field, and `timings.inference`.  A missing `timings` key and a `timings`
object without `inference` are collapsed to `none`. -/
structure ApiResult where
  images : Option (List String)
  seed : Option Int
  timings_inference : Option Rat
deriving DecidableEq

/-! ## DatabaseManager.log_generation (src/src/database.py lines 93-156) -/

/-- Body of `DatabaseManager.log_generation` once a call has bound its
arguments: derives `image_urls`, `seed` and the effective duration from
the API result when successful, inserts the row, returns its id
(AUTOINCREMENT: one more than the largest existing id). -/
def log_generation (db : List GenRecord) (now : String) (prompt base_model : String)
    (result : Option ApiResult) (finetuned_model : Option String) (steps : Option Int)
    (image_size : Option String) (num_images : Int) (generation_time : Option Rat)
    (success : Bool) (error_message : Option String) (image_paths : Option (List String))
    (metadata : Option (List (String × String))) : List GenRecord × Nat :=
  let ext : List String × Option Int × Option Rat :=
    match success, result with
    | true, some res =>
      match res.images with
      | some urls =>
        let agt :=
          if generation_time = none ∨ generation_time = some 0 then res.timings_inference
          else generation_time
        (urls, res.seed, agt)
      | none => ([], none, generation_time)
    | _, _ => ([], none, generation_time)
  let rid := db.foldr (fun r m => max r.id m) 0 + 1
  let row : GenRecord :=
    { id := rid, timestamp := now, prompt := prompt, base_model := base_model,
      finetuned_model := finetuned_model, steps := steps, image_size := image_size,
      num_images := num_images, seed := ext.2.1, image_paths := image_paths.getD [],
      image_urls := ext.1, generation_time := ext.2.2, success := success,
      error_message := error_message, metadata := metadata.getD [] }
  (db ++ [row], rid)

/-- Keyword arguments of a Python call to `log_generation`.  A field
left `none` means the keyword was not supplied, so the Python default
applies; `prompt`, `base_model` and `result` have no default. -/
structure LogKwargs where
  prompt : Option String := none
  base_model : Option String := none
  result : Option (Option ApiResult) := none
  finetuned_model : Option String := none
  steps : Option Int := none
  image_size : Option String := none
  num_images : Option Int := none
  generation_time : Option Rat := none
  success : Option Bool := none
  error_message : Option String := none
  image_paths : Option (List String) := none
  metadata : Option (List (String × String)) := none

/-- A Python call to `DatabaseManager.log_generation`: binding a call
that omits any of the three parameters without a default raises
TypeError before the body runs; `fault` injects an exception raised by
the database layer itself (e.g. sqlite3.OperationalError). -/
def call_log_generation (db : List GenRecord) (fault : Option String) (now : String)
    (kw : LogKwargs) : Except String (List GenRecord × Nat) :=
  match kw.prompt, kw.base_model, kw.result with
  | some p, some b, some res =>
    match fault with
    | some e => .error e
    | none =>
      .ok (log_generation db now p b res kw.finetuned_model kw.steps kw.image_size
        (kw.num_images.getD 1) kw.generation_time (kw.success.getD true)
        kw.error_message kw.image_paths kw.metadata)
  | _, _, _ =>
    .error "TypeError: log_generation missing 1 required positional argument: result"

/-! ## SQLite LIKE and search_generations (src/src/database.py lines 158-215) -/

/-- One pattern character matches one subject character: the default
SQLite `LIKE` folds ASCII case on both sides. -/
def charsMatch (p c : Char) : Bool := lowerAscii p == lowerAscii c

/-- SQLite `LIKE` pattern matching with default (ASCII case-insensitive)
collation: `%` matches any run of characters, `_` matches exactly one. -/
def like_match : List Char → List Char → Bool
  | [], s => s.isEmpty
  | p :: ps, s =>
    if p = '%' then s.tails.any (fun t => like_match ps t)
    else
      match s with
      | [] => false
      | c :: s2 => (if p = '_' then true else charsMatch p c) && like_match ps s2

/-- The WHERE clause of `search_generations`: optional prompt `LIKE`
filter (skipped for a falsy, i.e. empty, search string), optional exact
base-model and fine-tuned-model filters (likewise skipped when falsy),
and the success-only flag. -/
def search_filter (db : List GenRecord) (prompt_search : Option String)
    (base_model : Option String) (finetuned_model : Option String)
    (success_only : Bool) : List GenRecord :=
  db.filter (fun r =>
    (match prompt_search with
     | some q => if q = "" then true else like_match ("%" ++ q ++ "%").toList r.prompt.toList
     | none => true)
    && (match base_model with
        | some b => if b = "" then true else r.base_model == b
        | none => true)
    && (match finetuned_model with
        | some f2 => if f2 = "" then true else r.finetuned_model == some f2
        | none => true)
    && (if success_only then r.success else true))

/-- Insert a row into a list kept in descending timestamp order
(`ORDER BY timestamp DESC`). -/
def insert_desc (r : GenRecord) : List GenRecord → List GenRecord
  | [] => [r]
  | x :: xs => if strLt r.timestamp x.timestamp then x :: insert_desc r xs else r :: x :: xs

/-- Sort rows by timestamp, most recent first. -/
def sort_desc (l : List GenRecord) : List GenRecord := l.foldr insert_desc []

/-- `DatabaseManager.search_generations`: WHERE filters, then
`ORDER BY timestamp DESC LIMIT ? OFFSET ?`. -/
def search_generations (db : List GenRecord) (prompt_search : Option String)
    (base_model : Option String) (finetuned_model : Option String)
    (success_only : Bool) (limit offset : Nat) : List GenRecord :=
  ((sort_desc (search_filter db prompt_search base_model finetuned_model success_only)).drop
    offset).take limit

/-! ## get_generation_by_id / update_image_paths (database.py 217-231, 276-283) -/

/-- `DatabaseManager.get_generation_by_id`: `SELECT * WHERE id = ?`. -/
def get_generation_by_id (db : List GenRecord) (gid : Nat) : Option GenRecord :=
  db.find? (fun r => r.id == gid)

/-- `DatabaseManager.update_image_paths`: `UPDATE generations SET
image_paths = ? WHERE id = ?`, returning `rowcount > 0`. -/
def update_image_paths (db : List GenRecord) (gid : Nat) (paths : List String) :
    List GenRecord × Bool :=
  (db.map (fun r => if r.id = gid then { r with image_paths := paths } else r),
   db.any (fun r => r.id == gid))

/-! ## cleanup_old_generations (database.py 292-301) -/

/-- A Python `datetime` value: calendar date plus the rest of the ISO
rendering (the `Thh:mm:ss.ffffff` tail), which day replacement leaves
untouched. -/
structure PyDateTime where
  year : Nat
  month : Nat
  day : Nat
  time_part : String
deriving DecidableEq

/-- Length of a month, with the Gregorian leap rule, as `datetime`
validates it. -/
def days_in_month (y m : Nat) : Nat :=
  if m = 1 ∨ m = 3 ∨ m = 5 ∨ m = 7 ∨ m = 8 ∨ m = 10 ∨ m = 12 then 31
  else if m = 4 ∨ m = 6 ∨ m = 9 ∨ m = 11 then 30
  else if y % 4 = 0 ∧ (y % 100 ≠ 0 ∨ y % 400 = 0) then 29
  else 28

/-- Zero-padded two-digit rendering. -/
def pad2 (n : Nat) : String := if n < 10 then "0" ++ toString n else toString n

/-- Zero-padded four-digit rendering. -/
def pad4 (n : Nat) : String :=
  if n < 10 then "000" ++ toString n
  else if n < 100 then "00" ++ toString n
  else if n < 1000 then "0" ++ toString n
  else toString n

/-- `datetime.isoformat()`. -/
def isoformat (d : PyDateTime) : String :=
  pad4 d.year ++ "-" ++ pad2 d.month ++ "-" ++ pad2 d.day ++ d.time_part

/-- `datetime.replace(day=new_day)`: validates the day against the
(unchanged) month and raises ValueError when it is out of range. -/
def replace_day (d : PyDateTime) (new_day : Int) : Except String PyDateTime :=
  if 1 ≤ new_day ∧ new_day ≤ (days_in_month d.year d.month : Int) then
    .ok { d with day := new_day.toNat }
  else .error "ValueError: day is out of range for month"

/-- `DatabaseManager.cleanup_old_generations`: cutoff is the current
datetime with the day-of-month replaced by `day - keep_days`, then
`DELETE FROM generations WHERE timestamp < cutoff`; returns the
surviving table and the number of rows deleted. -/
def cleanup_old_generations (now : PyDateTime) (keep_days : Int) (db : List GenRecord) :
    Except String (List GenRecord × Nat) :=
  match replace_day now ((now.day : Int) - keep_days) with
  | .error e => .error e
  | .ok cut =>
    let cutoff := isoformat cut
    .ok (db.filter (fun r => ! strLt r.timestamp cutoff),
         (db.filter (fun r => strLt r.timestamp cutoff)).length)

/-! ## FALWrapper (src/src/fal_wrapper.py) -/

/-- `FALWrapper._log_generation` (lines 34-67): forwards to the
database when one is attached, swallowing any exception (returning
`none` in that case and when no database is attached). -/
def fal_log_generation (db_attached : Bool) (db : List GenRecord) (fault : Option String)
    (now : String) (kw : LogKwargs) : List GenRecord × Option Nat :=
  if db_attached then
    match call_log_generation db fault now kw with
    | .ok (db2, gid) => (db2, some gid)
    | .error _ => (db, none)
  else (db, none)

/-- `FALWrapper.edit_image` (lines 121-201).  The remote call outcome is
the `remote` parameter; `t` is the measured wall-clock duration.  Both
logging call sites pass `prompt`, `base_model`, `success`,
`generation_time` and (on success) `num_images` / (on failure)
`error_message` as keywords, and omit the required `result` parameter of
`log_generation`; the resulting TypeError is swallowed by the
surrounding `except` clause.  On a remote error the exception is
re-raised after the logging attempt. -/
def edit_image (db_attached : Bool) (db : List GenRecord) (fault : Option String)
    (now : String) (prompt : String) (image_urls : List String)
    (remote : Except String ApiResult) (t : Rat) :
    List GenRecord × Except String ApiResult :=
  match remote with
  | .ok res =>
    let db2 :=
      if db_attached then
        match call_log_generation db fault now
          { prompt := some ("[EDIT] " ++ prompt), base_model := some "nano-banana",
            success := some true, generation_time := some t,
            num_images := some ((res.images.getD []).length : Int) } with
        | .ok (d, _) => d
        | .error _ => db
      else db
    (db2, .ok res)
  | .error e =>
    let db2 :=
      if db_attached then
        match call_log_generation db fault now
          { prompt := some ("[EDIT] " ++ prompt), base_model := some "nano-banana",
            success := some false, generation_time := some t,
            error_message := some e } with
        | .ok (d, _) => d
        | .error _ => db
      else db
    (db2, .error e)

/-- The note printed when the nano-banana image count is clamped
(fal_wrapper.py line 258). -/
def clamp_note (n : Int) : String :=
  "Note: nano-banana max is 4 images, adjusted from " ++ toString n ++ " to 4"

/-- The argument dictionary built for the remote request. -/
structure GenArgs where
  prompt : String
  num_images : Int
  image_urls : Option (List String) := none
  image_size : Option String := none
  num_inference_steps : Option Int := none
  loras : Option String := none
deriving DecidableEq

/-- Python truthiness of an optional string (`None` and `""` falsy). -/
def truthyStr (o : Option String) : Bool :=
  match o with
  | some u => ! (u == "")
  | none => false

/-- Request construction of `FALWrapper.generate_image`
(lines 229-292): chooses the remote model id, builds the argument
dictionary (clamping `num_images` to 4 for nano-banana and steps to 4
for flux-schnell) and collects the user-visible notes printed while
doing so.  `upload` models `fal.upload_file`. -/
def build_generation_request (upload : String → String) (prompt base_model : String)
    (lora_url : Option String) (num_images : Int) (image_size : String) (steps : Int)
    (reference_images : List String) : String × GenArgs × List String :=
  if base_model = "nano-banana" then
    let base :=
      if ! reference_images.isEmpty then
        let uploaded := reference_images.map upload
        ("fal-ai/gemini-25-flash-image/edit",
         ({ prompt := prompt, num_images := min num_images 4,
            image_urls := some uploaded } : GenArgs),
         ["Uploading " ++ toString reference_images.length ++ " reference image(s)...",
          "Using nano-banana edit mode with " ++ toString uploaded.length ++
            " reference image(s)"])
      else
        ("fal-ai/gemini-25-flash-image",
         ({ prompt := prompt, num_images := min num_images 4 } : GenArgs),
         ["Using nano-banana text-to-image mode"])
    let prints := base.2.2 ++ (if 4 < num_images then [clamp_note num_images] else [])
    let prints := prints ++
      (if truthyStr lora_url then
        ["Note: nano-banana has no LoRA fine-tuning support, ignoring model parameter"]
       else [])
    (base.1, base.2.1, prints)
  else
    let model :=
      if base_model = "flux-dev" then "fal-ai/flux/dev"
      else if base_model = "flux-schnell" then "fal-ai/flux/schnell"
      else "fal-ai/flux/dev"
    let prints1 :=
      if ! reference_images.isEmpty then
        ["Note: Reference images are only supported for nano-banana model, ignoring reference images"]
      else []
    let actual_steps := if base_model = "flux-schnell" then min steps 4 else steps
    let prints2 := prints1 ++
      (if base_model = "flux-schnell" ∧ actual_steps ≠ steps then
        ["Note: flux-schnell max is 4 steps, adjusted from " ++ toString steps ++ " to " ++
          toString actual_steps]
       else [])
    (model,
     ({ prompt := prompt, num_images := num_images, image_size := some image_size,
        num_inference_steps := some actual_steps,
        loras := if truthyStr lora_url then lora_url else none } : GenArgs),
     prints2)

/-- `FALWrapper.generate_image` (lines 203-355): builds the request,
runs the remote call (its outcome is the `remote` parameter), logs the
generation through `_log_generation` — passing the `result` keyword,
unlike `edit_image` — and on success returns the result together with
the `_generation_id` value stored into it (None when logging failed or
no database is attached); on a remote error it logs a failure record
and re-raises. -/
def generate_image (upload : String → String) (db_attached : Bool) (db : List GenRecord)
    (fault : Option String) (now : String) (prompt base_model : String)
    (lora_url : Option String) (num_images : Int) (image_size : String) (steps : Int)
    (reference_images : List String) (remote : Except String ApiResult) (t : Rat) :
    List GenRecord × List String × Except String (ApiResult × Option Nat) :=
  let req := build_generation_request upload prompt base_model lora_url num_images
    image_size steps reference_images
  let args := req.2.1
  let prints := req.2.2 ++
    ["Generating " ++ toString args.num_images ++ " image(s) with " ++ base_model ++
      ": " ++ prompt]
  match remote with
  | .ok res =>
    let logged := fal_log_generation db_attached db fault now
      { prompt := some prompt, base_model := some base_model, result := some (some res),
        finetuned_model := lora_url,
        steps := if base_model = "nano-banana" then none else some steps,
        image_size := if base_model = "nano-banana" then none else some image_size,
        num_images := some args.num_images, generation_time := some t,
        success := some true }
    (logged.1, prints, .ok (res, logged.2))
  | .error e =>
    let logged := fal_log_generation db_attached db fault now
      { prompt := some prompt, base_model := some base_model, result := some none,
        finetuned_model := lora_url,
        steps := if base_model = "nano-banana" then none else some steps,
        image_size := if base_model = "nano-banana" then none else some image_size,
        num_images := some args.num_images, generation_time := some t,
        success := some false, error_message := some e }
    (logged.1, prints, .error e)

/-! ## StorageManager (src/src/storage.py) -/

/-- A model's metadata map. -/
abbrev ModelInfo := List (String × String)

/-- The models registry: a JSON object, i.e. a map from model names to
metadata, with unique keys in insertion order (Python dict). -/
abbrev Registry := List (String × ModelInfo)

/-- `StorageManager._load_models_registry` (lines 140-150): if the file
exists, parse it (`parsed = none` models a JSONDecodeError or IOError),
falling back to an empty registry on any parse failure; if the file
does not exist, the registry is empty.  The function is total: no
exception escapes. -/
def load_models_registry (file_exists : Bool) (parsed : Option Registry) : Registry :=
  if file_exists then
    match parsed with
    | some m => m
    | none => []
  else []

/-- The in-memory state of a `StorageManager`. -/
structure StorageState where
  models : Registry
deriving DecidableEq

/-- `StorageManager.__init__`: loads the registry. -/
def mk_storage (file_exists : Bool) (parsed : Option Registry) : StorageState :=
  { models := load_models_registry file_exists parsed }

/-- Python dict assignment `d[n] = i`: replace in place if the key
exists, else append. -/
def set_key : Registry → String → ModelInfo → Registry
  | [], n, i => [(n, i)]
  | (k, v) :: rest, n, i =>
    if k = n then (n, i) :: rest else (k, v) :: set_key rest n i

/-- Python `del d[n]` for a present key: drop the entry. -/
def del_key : Registry → String → Registry
  | [], _ => []
  | (k, v) :: rest, n => if k = n then rest else (k, v) :: del_key rest n

/-- Python `n in d`. -/
def contains_key (reg : Registry) (n : String) : Bool :=
  reg.any (fun kv => kv.1 == n)

/-- `StorageManager.save_model`. -/
def save_model (s : StorageState) (name : String) (info : ModelInfo) : StorageState :=
  { models := set_key s.models name info }

/-- `StorageManager.load_model`: `self._models.get(name)`. -/
def load_model (s : StorageState) (name : String) : Option ModelInfo :=
  (s.models.find? (fun kv => kv.1 == name)).map Prod.snd

/-- `StorageManager.list_models`: a copy of the registry. -/
def list_models (s : StorageState) : Registry := s.models

/-- `StorageManager.delete_model`: removes the entry and reports whether
it was present. -/
def delete_model (s : StorageState) (name : String) : StorageState × Bool :=
  if contains_key s.models name then ({ models := del_key s.models name }, true)
  else (s, false)

/-! ## IterativeEditor (src/src/editor_ui.py) -/

/-- The mutable state of the interactive line-based editor. -/
structure EditorState where
  current_image_path : Option String
  edit_history : List (String × String)
  current_step : Nat
deriving DecidableEq

/-- `IterativeEditor.start_session` (lines 21-28): rejects a missing
initial image, otherwise initialises path, one-entry history and step
counter. -/
def start_session (initial_image_path : String) (file_exists : Bool) :
    Except String EditorState :=
  if ! file_exists then .error ("Initial image not found: " ++ initial_image_path)
  else
    .ok { current_image_path := some initial_image_path,
          edit_history := [("Initial image", initial_image_path)],
          current_step := 0 }

/-- `IterativeEditor._apply_edit` (lines 89-134).  `edit_result` is the
outcome of the upload plus edit call (an exception anywhere in that
prefix, or the images list of a successful result); `save_exc` is an
exception raised while downloading or writing the edited image, which
happens before any state is mutated.  Only a successful, non-empty
result that also saves cleanly advances the step counter, the current
path and the history; every failure is caught and leaves the state
untouched. -/
def apply_edit (s : EditorState) (prompt : String)
    (edit_result : Except String (List String)) (save_exc : Option String)
    (save_path : String) : EditorState :=
  match edit_result with
  | .error _ => s
  | .ok images =>
    if images.isEmpty then s
    else
      match save_exc with
      | some _ => s
      | none =>
        { current_step := s.current_step + 1,
          current_image_path := some save_path,
          edit_history := s.edit_history ++ [(prompt, save_path)] }

/-- The editor invariant claimed by the spec: the history is non-empty,
the step counter is one less than the history length, and the current
image path is the path of the last history entry. -/
def editor_inv (s : EditorState) : Prop :=
  s.edit_history ≠ [] ∧
  s.current_step = s.edit_history.length - 1 ∧
  s.current_image_path = s.edit_history.getLast?.map Prod.snd

/-! ## ImagePreview._generate_ascii (src/src/image_preview.py 265-292) -/

/-- An 8-bit grayscale image: dimensions plus a pixel accessor. -/
structure GrayImage where
  w : Nat
  h : Nat
  pix : Nat → Nat → Nat

/-- The fixed 10-character ramp, dark to light. -/
def ascii_chars : List Char := (" .:-=+*#%@").toList

/-- Height of the ASCII grid when none is supplied:
`int(width * (img.height / img.width) * 0.55)`, i.e. the floor of the
exact rational value. -/
def ascii_height (img_w img_h width : Nat) : Nat := (width * img_h * 55) / (img_w * 100)

/-- Character for one 0-255 grayscale value:
`chars[int(pixel * (len(chars) - 1) / 255)]`. -/
def ascii_char_for (p : Nat) : Char :=
  ascii_chars.getD ((p * (ascii_chars.length - 1)) / 255) ' '

/-- The character grid of `_generate_ascii`: resize to the target
width and the (computed or supplied) height, then map every pixel
through the ramp.  `resize` models the image library's resampling. -/
def ascii_lines (resize : GrayImage → Nat → Nat → GrayImage) (img : GrayImage)
    (width : Nat) (height? : Option Nat) : List (List Char) :=
  let height :=
    match height? with
    | some hh => hh
    | none => ascii_height img.w img.h width
  let rimg := resize img width height
  (List.range height).map (fun y =>
    (List.range width).map (fun x => ascii_char_for (rimg.pix x y)))

/-- `ImagePreview._generate_ascii`: the grid joined with newlines. -/
def generate_ascii (resize : GrayImage → Nat → Nat → GrayImage) (img : GrayImage)
    (width : Nat) (height? : Option Nat) : String :=
  String.intercalate "\n" ((ascii_lines resize img width height?).map (fun l => String.mk l))

/-! ## Spec-side matching predicates and concrete test data -/

/-- ASCII-case-insensitive literal prefix match (what a wildcard-free
`LIKE` fragment denotes). -/
def lit_head_fit : List Char → List Char → Bool
  | [], _ => true
  | _ :: _, [] => false
  | p :: ps, c :: s => charsMatch p c && lit_head_fit ps s

/-- ASCII-case-insensitive literal substring containment. -/
def lit_contains (q s : List Char) : Bool := s.tails.any (fun t => lit_head_fit q t)

/-- Case-sensitive literal prefix match, as the claim words it. -/
def cs_head_fit : List Char → List Char → Bool
  | [], _ => true
  | _ :: _, [] => false
  | p :: ps, c :: s => (p == c) && cs_head_fit ps s

/-- Case-sensitive literal substring containment, as the claim words
it. -/
def cs_contains (q s : List Char) : Bool := s.tails.any (fun t => cs_head_fit q t)

/-- A stored successful generation whose prompt is capitalised. -/
def rec_cat : GenRecord :=
  { id := 1, timestamp := "2026-10-01T12:00:00.000000", prompt := "Cat",
    base_model := "nano-banana", finetuned_model := none, steps := none,
    image_size := none, num_images := 1, seed := none, image_paths := [],
    image_urls := [], generation_time := none, success := true,
    error_message := none, metadata := [] }

/-- A current datetime whose day-of-month (12) is smaller than the
default keep_days (30). -/
def now_oct12 : PyDateTime :=
  { year := 2026, month := 10, day := 12, time_part := "T09:30:00.000000" }

/-- A current datetime for which day-of-month minus a small keep_days
stays a valid day. -/
def now_oct20 : PyDateTime :=
  { year := 2026, month := 10, day := 20, time_part := "T09:30:00.000000" }

/-- A record older than the 2026-10-15 cutoff. -/
def rec_old : GenRecord :=
  { rec_cat with id := 2, timestamp := "2026-10-10T08:00:00.000000", prompt := "old" }

/-- A record newer than the 2026-10-15 cutoff. -/
def rec_new : GenRecord :=
  { rec_cat with id := 3, timestamp := "2026-10-18T08:00:00.000000", prompt := "new" }

/-- A second record for the frame-condition tests. -/
def rec_b : GenRecord :=
  { rec_cat with id := 4, timestamp := "2026-10-02T12:00:00.000000", prompt := "dog" }

/-- A 3-wide, 1-high grayscale image of constant value 128. -/
def img_3x1 : GrayImage := { w := 3, h := 1, pix := fun _ _ => 128 }

/-- A stand-in for the image library's resize: constant-value image of
the requested dimensions. -/
def resize_const : GrayImage → Nat → Nat → GrayImage :=
  fun img width height => { w := width, h := height, pix := fun _ _ => img.pix 0 0 }

/-! ## Shared lemmas -/

theorem set_key_find (reg : Registry) (n : String) (i : ModelInfo) :
    (set_key reg n i).find? (fun kv => kv.1 == n) = some (n, i) := by
  induction reg with
  | nil => simp [set_key]
  | cons kv rest ih =>
    by_cases h : kv.1 = n
    · simp [set_key, h]
    · simp [set_key, h, List.find?, ih]

theorem set_key_keys_eq (reg : Registry) (n : String) (i : ModelInfo) :
    (set_key reg n i).map Prod.fst =
      if contains_key reg n then reg.map Prod.fst else reg.map Prod.fst ++ [n] := by
  induction reg with
  | nil => simp [set_key, contains_key]
  | cons kv rest ih =>
    by_cases h : kv.1 = n
    · simp [set_key, contains_key, h]
    · have hck : contains_key (kv :: rest) n = contains_key rest n := by
        simp [contains_key, List.any_cons]
        intro hc
        exact absurd hc h
      rw [hck]
      by_cases h2 : contains_key rest n
      · simp [set_key, h, ih, h2]
      · simp [set_key, h, ih, h2]

theorem set_key_keys_mem (reg : Registry) (n : String) (i : ModelInfo) :
    n ∈ (set_key reg n i).map Prod.fst := by
  rw [set_key_keys_eq]
  by_cases h : contains_key reg n
  · rw [if_pos h]
    simp only [contains_key, List.any_eq_true, beq_iff_eq] at h
    rcases h with ⟨kv, hkv, hfst⟩
    exact List.mem_map.mpr ⟨kv, hkv, hfst⟩
  · rw [if_neg h]
    simp

theorem set_key_keys_nodup (reg : Registry) (n : String) (i : ModelInfo)
    (hnd : (reg.map Prod.fst).Nodup) : ((set_key reg n i).map Prod.fst).Nodup := by
  rw [set_key_keys_eq]
  by_cases h : contains_key reg n
  · rwa [if_pos h]
  · rw [if_neg h]
    have hn : n ∉ reg.map Prod.fst := by
      intro hm
      rcases List.mem_map.mp hm with ⟨kv, hkv, hfst⟩
      have : contains_key reg n = true := by
        simp only [contains_key, List.any_eq_true, beq_iff_eq]
        exact ⟨kv, hkv, hfst⟩
      exact h this
    rw [List.nodup_append]
    refine ⟨hnd, List.nodup_singleton n, ?_⟩
    intro a ha hb
    simp only [List.mem_singleton] at hb
    subst hb
    exact hn ha

theorem del_key_mem_subset (reg : Registry) (n : String) :
    ∀ kv, kv ∈ del_key reg n → kv ∈ reg := by
  induction reg with
  | nil => simp [del_key]
  | cons kv2 rest ih =>
    intro kv hkv
    by_cases h : kv2.1 = n
    · simp only [del_key, h, if_true] at hkv
      exact List.mem_cons_of_mem _ hkv
    · simp only [del_key, h, if_false] at hkv
      rcases List.mem_cons.mp hkv with h2 | h2
      · exact h2 ▸ List.mem_cons_self _ _
      · exact List.mem_cons_of_mem _ (ih kv h2)

theorem del_key_keys_subset (reg : Registry) (n : String) :
    ∀ a, a ∈ (del_key reg n).map Prod.fst → a ∈ reg.map Prod.fst := by
  intro a ha
  rcases List.mem_map.mp ha with ⟨kv, hkv, hfst⟩
  exact List.mem_map.mpr ⟨kv, del_key_mem_subset reg n kv hkv, hfst⟩

theorem del_key_keys_not_mem (reg : Registry) (n : String)
    (hnd : (reg.map Prod.fst).Nodup) : n ∉ (del_key reg n).map Prod.fst := by
  induction reg with
  | nil => simp [del_key]
  | cons kv rest ih =>
    simp only [List.map_cons, List.nodup_cons] at hnd
    by_cases h : kv.1 = n
    · subst h
      simpa [del_key] using hnd.1
    · simp only [del_key, h, if_false, List.map_cons, List.mem_cons, not_or]
      exact ⟨fun hc => h hc.symm, ih hnd.2⟩

theorem del_key_keys_nodup (reg : Registry) (n : String)
    (hnd : (reg.map Prod.fst).Nodup) : ((del_key reg n).map Prod.fst).Nodup := by
  induction reg with
  | nil => simpa [del_key] using hnd
  | cons kv rest ih =>
    simp only [List.map_cons, List.nodup_cons] at hnd
    by_cases h : kv.1 = n
    · simpa [del_key, h] using hnd.2
    · simp only [del_key, h, if_false, List.map_cons, List.nodup_cons]
      exact ⟨fun hm => hnd.1 (del_key_keys_subset rest n kv.1 hm), ih hnd.2⟩

theorem find_none_of_key_not_mem (reg : Registry) (n : String)
    (h : n ∉ reg.map Prod.fst) : reg.find? (fun kv => kv.1 == n) = none := by
  induction reg with
  | nil => simp
  | cons kv rest ih =>
    simp only [List.map_cons, List.mem_cons, not_or] at h
    have hb : (kv.1 == n) = false := by
      simp only [beq_eq_false_iff_ne, ne_eq]
      intro hc
      exact h.1 hc.symm
    simp [List.find?, hb, ih h.2]

theorem contains_key_false_of_not_mem (reg : Registry) (n : String)
    (h : n ∉ reg.map Prod.fst) : contains_key reg n = false := by
  simp only [contains_key, List.any_eq_false]
  intro kv hkv
  simp only [beq_iff_eq]
  intro hc
  exact h (List.mem_map.mpr ⟨kv, hkv, hc⟩)

/-! ## C1 -/

/-- C1: in the API Client Wrapper's edit operation, both logging call
sites omit the required `result` argument of `log_generation`, so the
logging attempt raises a TypeError that the surrounding handler
swallows: with a History Database attached, no generation record is
ever written, on success or on failure, while the remote outcome (the
result, or the re-raised error) is returned unchanged.  This refutes
the claim that a success or failure record is written. -/
theorem c1_edit_image_writes_no_record (db : List GenRecord) (fault : Option String)
    (now : String) (prompt : String) (image_urls : List String)
    (remote : Except String ApiResult) (t : Rat) :
    (edit_image true db fault now prompt image_urls remote t).1 = db ∧
    (edit_image true db fault now prompt image_urls remote t).2 = remote := by
  cases remote with
  | ok res => exact ⟨rfl, rfl⟩
  | error e => exact ⟨rfl, rfl⟩

/-! ## C10 -/

/-- C10: when the remote call of generate_image succeeds but the
attached History Database's log_generation raises, the exception is
swallowed: the database is left unchanged and the remote result is
still returned, with its `_generation_id` entry set to the absent value
(None). -/
theorem c10_generate_image_swallows_log_failure (upload : String → String)
    (db : List GenRecord) (f : String) (now : String) (prompt base_model : String)
    (lora_url : Option String) (num_images : Int) (image_size : String) (steps : Int)
    (reference_images : List String) (res : ApiResult) (t : Rat) :
    (generate_image upload true db (some f) now prompt base_model lora_url num_images
        image_size steps reference_images (.ok res) t).1 = db ∧
    (generate_image upload true db (some f) now prompt base_model lora_url num_images
        image_size steps reference_images (.ok res) t).2.2 = .ok (res, none) := by
  exact ⟨rfl, rfl⟩

/-! ## C4 -/

/-- C4: for every generate call targeting the nano-banana model, with
or without reference images, the image count placed in the remote
request arguments is `min(requested, 4)`, and whenever the requested
count exceeds 4 the note stating the adjustment from the requested
count to 4 is among the printed lines. -/
theorem c4_nano_banana_clamp (upload : String → String) (prompt : String)
    (lora_url : Option String) (num_images : Int) (image_size : String) (steps : Int)
    (reference_images : List String) :
    (build_generation_request upload prompt "nano-banana" lora_url num_images
        image_size steps reference_images).2.1.num_images = min num_images 4 ∧
    (4 < num_images →
      clamp_note num_images ∈
        (build_generation_request upload prompt "nano-banana" lora_url num_images
          image_size steps reference_images).2.2) := by
  constructor
  · by_cases h : reference_images.isEmpty <;>
      simp [build_generation_request, h]
  · intro hlt
    by_cases h : reference_images.isEmpty <;>
      by_cases h2 : truthyStr lora_url <;>
        simp [build_generation_request, h, h2, hlt]

/-- C4 witness: requesting 10 images clamps to 4 and prints the note. -/
theorem c4_nano_banana_clamp_witness :
    (build_generation_request (fun s => s) "a cat" "nano-banana" none 10 "landscape_16_9"
        28 []).2.1.num_images = min 10 4 ∧
    clamp_note 10 ∈
      (build_generation_request (fun s => s) "a cat" "nano-banana" none 10 "landscape_16_9"
        28 []).2.2 := by
  refine ⟨(c4_nano_banana_clamp (fun s => s) "a cat" none 10 "landscape_16_9" 28 []).1, ?_⟩
  exact (c4_nano_banana_clamp (fun s => s) "a cat" none 10 "landscape_16_9" 28 []).2
    (by decide)

/-! ## C5 -/

/-- C5: constructing a Local Model Registry over an existing registry
file whose text fails to parse as JSON (`parsed = none`) yields an
empty in-memory registry, and the constructor is total, so no error is
raised: list_models returns the empty map. -/
theorem c5_malformed_registry_empty :
    list_models (mk_storage true none) = [] := rfl

/-! ## C6 -/

/-- C6: registry round trip.  After save_model the entry loads back
equal to the stored metadata and the name is listed; delete_model then
returns true and removes the entry, and an immediately repeated
delete_model returns false (and raises nothing: the operation is
total). -/
theorem c6_registry_round_trip (s : StorageState) (name : String) (info : ModelInfo)
    (hnd : (s.models.map Prod.fst).Nodup) :
    load_model (save_model s name info) name = some info ∧
    name ∈ (list_models (save_model s name info)).map Prod.fst ∧
    (delete_model (save_model s name info) name).2 = true ∧
    load_model (delete_model (save_model s name info) name).1 name = none ∧
    (delete_model (delete_model (save_model s name info) name).1 name).2 = false := by
  have h1 : load_model (save_model s name info) name = some info := by
    simp [load_model, save_model, set_key_find]
  have hkeys : name ∈ (list_models (save_model s name info)).map Prod.fst :=
    set_key_keys_mem s.models name info
  have hnd2 : ((set_key s.models name info).map Prod.fst).Nodup :=
    set_key_keys_nodup s.models name info hnd
  have hcontains : contains_key (set_key s.models name info) name = true := by
    simp only [contains_key, List.any_eq_true]
    rcases List.mem_map.mp hkeys with ⟨kv, hkv, hfst⟩
    exact ⟨kv, hkv, by simp [hfst]⟩
  have hdel1 : (delete_model (save_model s name info) name).2 = true := by
    simp [delete_model, save_model, hcontains]
  have hafter : (delete_model (save_model s name info) name).1 =
      { models := del_key (set_key s.models name info) name } := by
    simp [delete_model, save_model, hcontains]
  have hnotmem : name ∉ (del_key (set_key s.models name info) name).map Prod.fst :=
    del_key_keys_not_mem _ name hnd2
  have h2 : load_model (delete_model (save_model s name info) name).1 name = none := by
    rw [hafter]
    simp [load_model, find_none_of_key_not_mem _ name hnotmem]
  have h3 : (delete_model (delete_model (save_model s name info) name).1 name).2 = false := by
    rw [hafter]
    simp [delete_model, contains_key_false_of_not_mem _ name hnotmem]
  exact ⟨h1, hkeys, hdel1, h2, h3⟩

/-- C6 witness: the round trip on a concrete singleton registry. -/
theorem c6_registry_round_trip_witness :
    load_model (save_model (mk_storage false none) "me" [("lora_url", "u")]) "me" =
      some [("lora_url", "u")] ∧
    "me" ∈ (list_models (save_model (mk_storage false none) "me"
      [("lora_url", "u")])).map Prod.fst ∧
    (delete_model (save_model (mk_storage false none) "me" [("lora_url", "u")]) "me").2 =
      true ∧
    load_model (delete_model (save_model (mk_storage false none) "me"
      [("lora_url", "u")]) "me").1 "me" = none ∧
    (delete_model (delete_model (save_model (mk_storage false none) "me"
      [("lora_url", "u")]) "me").1 "me").2 = false :=
  c6_registry_round_trip (mk_storage false none) "me" [("lora_url", "u")] (by simp [mk_storage, load_models_registry])

theorem tails_any_iff (s : List Char) (f : List Char → Bool) :
    s.tails.any f = true ↔ ∃ l t, s = l ++ t ∧ f t = true := by
  induction s with
  | nil =>
    constructor
    · intro h
      simp only [List.tails, List.any_cons, List.any_nil, Bool.or_false] at h
      exact ⟨[], [], rfl, h⟩
    · rintro ⟨l, t, hlt, hf⟩
      rcases List.append_eq_nil.mp hlt.symm with ⟨rfl, rfl⟩
      simpa [List.tails] using hf
  | cons c s ih =>
    rw [List.tails_cons, List.any_cons]
    constructor
    · intro h
      rcases (show f (c :: s) = true ∨ s.tails.any f = true by simpa using h) with h | h
      · exact ⟨[], c :: s, rfl, h⟩
      · rcases ih.mp h with ⟨l, t, hlt, hf⟩
        exact ⟨c :: l, t, by rw [hlt, List.cons_append], hf⟩
    · rintro ⟨l, t, hlt, hf⟩
      cases l with
      | nil =>
        simp only [List.nil_append] at hlt
        subst hlt
        simp [hf]
      | cons x l2 =>
        rw [List.cons_append] at hlt
        injection hlt with h1 h2
        simpa using Or.inr (ih.mpr ⟨l2, t, h2, hf⟩)

theorem lit_head_fit_iff (q : List Char) : ∀ s : List Char,
    (lit_head_fit q s = true ↔ ∃ t, s.map lowerAscii = q.map lowerAscii ++ t) := by
  induction q with
  | nil =>
    intro s
    simp [lit_head_fit]
  | cons p ps ih =>
    intro s
    cases s with
    | nil =>
      simp [lit_head_fit]
    | cons c s2 =>
      simp only [lit_head_fit, Bool.and_eq_true, List.map_cons, List.cons_append]
      constructor
      · rintro ⟨hc, hp⟩
        rcases (ih s2).mp hp with ⟨t, ht⟩
        refine ⟨t, ?_⟩
        have hcc : lowerAscii c = lowerAscii p := (beq_iff_eq.mp hc).symm
        rw [ht, hcc]
      · rintro ⟨t, ht⟩
        injection ht with h1 h2
        constructor
        · exact beq_iff_eq.mpr h1.symm
        · exact (ih s2).mpr ⟨t, h2⟩

theorem any_ext (l : List (List Char)) (f g : List Char → Bool)
    (h : ∀ x, f x = g x) : l.any f = l.any g := by
  induction l with
  | nil => rfl
  | cons a tl ih => simp [List.any_cons, h a, ih]

theorem like_pct_append (q : List Char) (hq1 : '%' ∉ q) (hq2 : '_' ∉ q) :
    ∀ s : List Char, like_match (q ++ ['%']) s = lit_head_fit q s := by
  induction q with
  | nil =>
    intro s
    have hall : like_match ['%'] s = true := by
      rw [show like_match ['%'] s = s.tails.any (fun t => like_match [] t) by
        simp [like_match]]
      rw [tails_any_iff]
      exact ⟨s, [], by simp, by simp [like_match]⟩
    simp [hall, lit_head_fit]
  | cons p ps ih =>
    have hp1 : p ≠ '%' := fun h => hq1 (h ▸ List.mem_cons_self p ps)
    have hp2 : p ≠ '_' := fun h => hq2 (h ▸ List.mem_cons_self p ps)
    have hps1 : '%' ∉ ps := fun h => hq1 (List.mem_cons_of_mem p h)
    have hps2 : '_' ∉ ps := fun h => hq2 (List.mem_cons_of_mem p h)
    intro s
    cases s with
    | nil => simp [like_match, lit_head_fit, hp1]
    | cons c s2 =>
      simp [like_match, lit_head_fit, hp1, hp2, ih hps1 hps2 s2]

theorem like_contains_eq (q : List Char) (hq1 : '%' ∉ q) (hq2 : '_' ∉ q)
    (s : List Char) : like_match ('%' :: (q ++ ['%'])) s = lit_contains q s := by
  rw [show like_match ('%' :: (q ++ ['%'])) s =
      s.tails.any (fun t => like_match (q ++ ['%']) t) by simp [like_match]]
  rw [lit_contains]
  exact any_ext _ _ _ (fun t => like_pct_append q hq1 hq2 t)

theorem lit_contains_iff (q s : List Char) :
    lit_contains q s = true ↔
      ∃ l t, s.map lowerAscii = l ++ q.map lowerAscii ++ t := by
  rw [lit_contains, tails_any_iff]
  constructor
  · rintro ⟨l, t, rfl, hf⟩
    rcases (lit_head_fit_iff q t).mp hf with ⟨t2, ht⟩
    refine ⟨l.map lowerAscii, t2, ?_⟩
    rw [List.map_append, ht, List.append_assoc]
  · rintro ⟨l, t, h⟩
    refine ⟨s.take l.length, s.drop l.length, (List.take_append_drop _ s).symm, ?_⟩
    rw [lit_head_fit_iff]
    refine ⟨t, ?_⟩
    have hmap : (s.drop l.length).map lowerAscii = (s.map lowerAscii).drop l.length := by
      rw [List.map_drop]
    rw [hmap, h, List.append_assoc, List.drop_left]

theorem cs_head_fit_iff (q : List Char) : ∀ s : List Char,
    (cs_head_fit q s = true ↔ ∃ t, s = q ++ t) := by
  induction q with
  | nil =>
    intro s
    simp [cs_head_fit]
  | cons p ps ih =>
    intro s
    cases s with
    | nil => simp [cs_head_fit]
    | cons c s2 =>
      simp only [cs_head_fit, Bool.and_eq_true, List.cons_append]
      constructor
      · rintro ⟨hc, hp⟩
        rcases (ih s2).mp hp with ⟨t, ht⟩
        exact ⟨t, by rw [ht, beq_iff_eq.mp hc]⟩
      · rintro ⟨t, ht⟩
        injection ht with h1 h2
        exact ⟨beq_iff_eq.mpr h1.symm, (ih s2).mpr ⟨t, h2⟩⟩

theorem cs_contains_iff (q s : List Char) :
    cs_contains q s = true ↔ ∃ l t, s = l ++ q ++ t := by
  rw [cs_contains, tails_any_iff]
  constructor
  · rintro ⟨l, t, rfl, hf⟩
    rcases (cs_head_fit_iff q t).mp hf with ⟨t2, rfl⟩
    exact ⟨l, t2, by rw [List.append_assoc]⟩
  · rintro ⟨l, t, rfl⟩
    refine ⟨l, q ++ t, by rw [List.append_assoc], ?_⟩
    exact (cs_head_fit_iff q (q ++ t)).mpr ⟨t, rfl⟩

/-- C2 (amended): the prompt filter of search_generations is the default
SQLite `LIKE` over the pattern `%query%`, which folds ASCII case and
honours wildcards; for every stored record and every non-empty query
free of the `%` and `_` wildcard characters, the record passes the
WHERE clause if and only if all other supplied filters are satisfied
and its prompt contains the query as a literal substring ignoring ASCII
letter case.  The original claim's "identical letter case" is refuted
by `c2_counterexample`. -/
theorem c2_prompt_filter_ci (db : List GenRecord) (r : GenRecord) (q : String)
    (bm fm : Option String) (so : Bool) (hr : r ∈ db) (hq : q ≠ "")
    (hw1 : '%' ∉ q.toList) (hw2 : '_' ∉ q.toList) :
    r ∈ search_filter db (some q) bm fm so ↔
      ((∀ b, bm = some b → b ≠ "" → r.base_model = b) ∧
       (∀ f2, fm = some f2 → f2 ≠ "" → r.finetuned_model = some f2) ∧
       (so = true → r.success = true) ∧
       ∃ l t, r.prompt.toList.map lowerAscii = l ++ q.toList.map lowerAscii ++ t) := by
  have hpat : ("%" ++ q ++ "%").toList = '%' :: (q.toList ++ ['%']) := by
    simp [String.data_append]
  rw [search_filter, List.mem_filter]
  simp only [hq, if_false, hr, true_and, Bool.and_eq_true]
  constructor
  · rintro ⟨⟨⟨h1, h2⟩, h3⟩, h4⟩
    refine ⟨?_, ?_, ?_, ?_⟩
    · intro b hb hbne
      rcases bm with _ | b0
      · cases hb
      · injection hb with hb
        subst hb
        simp only [if_neg hbne, beq_iff_eq] at h2
        exact h2
    · intro f2 hf hfne
      rcases fm with _ | f0
      · cases hf
      · injection hf with hf
        subst hf
        simp only [if_neg hfne, beq_iff_eq] at h3
        exact h3
    · intro hso
      subst hso
      simpa using h4
    · rw [hpat, like_contains_eq q.toList hw1 hw2] at h1
      exact (lit_contains_iff q.toList r.prompt.toList).mp h1
  · rintro ⟨hbm, hfm, hso, hsub⟩
    refine ⟨⟨⟨?_, ?_⟩, ?_⟩, ?_⟩
    · rw [hpat, like_contains_eq q.toList hw1 hw2]
      exact (lit_contains_iff q.toList r.prompt.toList).mpr hsub
    · rcases bm with _ | b0
      · rfl
      · by_cases hb : b0 = ""
        · simp [hb]
        · simp [hb, hbm b0 rfl hb]
    · rcases fm with _ | f0
      · rfl
      · by_cases hf : f0 = ""
        · simp [hf]
        · simp [hf, hfm f0 rfl hf]
    · rcases so with _ | _
      · rfl
      · simpa using hso rfl

/-- C2 counterexample: the record with prompt "Cat" is returned for the
query "cat" although "cat" is not a case-sensitive substring of "Cat",
so the claimed case-sensitive characterisation is false. -/
theorem c2_counterexample :
    rec_cat ∈ search_generations [rec_cat] (some "cat") none none true 50 0 ∧
    ¬ (∃ l t, ("Cat").toList = l ++ ("cat").toList ++ t) := by
  constructor
  · decide
  · intro h
    have := (cs_contains_iff ("cat").toList ("Cat").toList).mpr h
    revert this
    decide

/-- C2 witness: the amended equivalence at a concrete database. -/
theorem c2_witness :
    rec_cat ∈ [rec_cat] ∧ ("cat" : String) ≠ "" ∧ '%' ∉ ("cat").toList ∧
    '_' ∉ ("cat").toList ∧
    (rec_cat ∈ search_filter [rec_cat] (some "cat") none none true ↔
      ((∀ b, (none : Option String) = some b → b ≠ "" → rec_cat.base_model = b) ∧
       (∀ f2, (none : Option String) = some f2 → f2 ≠ "" →
         rec_cat.finetuned_model = some f2) ∧
       (true = true → rec_cat.success = true) ∧
       ∃ l t, rec_cat.prompt.toList.map lowerAscii =
         l ++ ("cat").toList.map lowerAscii ++ t)) :=
  ⟨by decide, by decide, by decide, by decide,
   c2_prompt_filter_ci [rec_cat] rec_cat "cat" none none true (by decide) (by decide)
     (by decide) (by decide)⟩

/-- C3 (amended): whenever `current day-of-month - keep_days` is a
valid day of the current month, cleanup_old_generations replaces the
day component by that difference, deletes exactly the records whose ISO
timestamp string compares earlier than the resulting cutoff string, and
returns the number of records deleted.  For other keep_days values the
day replacement raises ValueError (see `c3_counterexample`), refuting
the original universally-quantified claim. -/
theorem c3_cleanup_valid (now : PyDateTime) (keep_days : Int) (db : List GenRecord)
    (h : 1 ≤ (now.day : Int) - keep_days ∧
         (now.day : Int) - keep_days ≤ (days_in_month now.year now.month : Int)) :
    ∃ kept cnt, cleanup_old_generations now keep_days db = .ok (kept, cnt) ∧
      (∀ r, r ∈ kept ↔ r ∈ db ∧
        strLt r.timestamp
          (isoformat { now with day := ((now.day : Int) - keep_days).toNat }) = false) ∧
      cnt = db.countP (fun r => strLt r.timestamp
          (isoformat { now with day := ((now.day : Int) - keep_days).toNat })) := by
  have hrep : replace_day now ((now.day : Int) - keep_days) =
      .ok { now with day := ((now.day : Int) - keep_days).toNat } := by
    rw [replace_day, if_pos h]
  refine ⟨db.filter (fun r => ! strLt r.timestamp
      (isoformat { now with day := ((now.day : Int) - keep_days).toNat })),
    (db.filter (fun r => strLt r.timestamp
      (isoformat { now with day := ((now.day : Int) - keep_days).toNat }))).length,
    ?_, ?_, ?_⟩
  · rw [cleanup_old_generations, hrep]
  · intro r
    rw [List.mem_filter]
    simp [Bool.not_eq_true']
  · rw [List.countP_eq_length_filter]

/-- C3 counterexample: with the current day-of-month 12 and the default
keep_days 30, the day replacement is invalid, the call raises
ValueError, and no count of deleted records is returned. -/
theorem c3_counterexample :
    cleanup_old_generations now_oct12 30 [rec_old] =
      .error "ValueError: day is out of range for month" := rfl

/-- C3 witness: the amended statement at a concrete datetime and
two-record table. -/
theorem c3_witness :
    ∃ kept cnt, cleanup_old_generations now_oct20 5 [rec_old, rec_new] = .ok (kept, cnt) ∧
      (∀ r, r ∈ kept ↔ r ∈ [rec_old, rec_new] ∧
        strLt r.timestamp
          (isoformat { now_oct20 with
            day := ((now_oct20.day : Int) - 5).toNat }) = false) ∧
      cnt = ([rec_old, rec_new]).countP (fun r => strLt r.timestamp
          (isoformat { now_oct20 with day := ((now_oct20.day : Int) - 5).toNat })) :=
  c3_cleanup_valid now_oct20 5 [rec_old, rec_new] (by decide)

theorem genrecord_update_id (r : GenRecord) (ps : List String) :
    ({ r with image_paths := ps } : GenRecord).id = r.id := rfl

theorem map_id_of_mem {α : Type} (l : List α) (f : α → α) (h : ∀ x ∈ l, f x = x) :
    l.map f = l := by
  induction l with
  | nil => rfl
  | cons a tl ih =>
    rw [List.map_cons, h a (List.mem_cons_self a tl),
      ih (fun x hx => h x (List.mem_cons_of_mem a hx))]

theorem c9_find_helper (db : List GenRecord) (gid : Nat) (ps : List String)
    (hnd : (db.map GenRecord.id).Nodup) (r : GenRecord) (hr : r ∈ db)
    (hid : r.id = gid) :
    (db.map (fun x => if x.id = gid then { x with image_paths := ps } else x)).find?
      (fun x => x.id == gid) = some { r with image_paths := ps } := by
  induction db with
  | nil => cases hr
  | cons a tl ih =>
    simp only [List.map_cons, List.nodup_cons] at hnd
    rcases List.mem_cons.mp hr with h | h
    · subst h
      rw [List.map_cons, if_pos hid]
      have : (({ r with image_paths := ps } : GenRecord).id == gid) = true := by
        simp [genrecord_update_id, hid]
      simp [List.find?, this]
    · have ha : a.id ≠ gid := by
        intro hc
        exact hnd.1 (List.mem_map.mpr ⟨r, h, hid.trans hc.symm⟩)
      rw [List.map_cons, if_neg ha]
      have hb : (a.id == gid) = false := by simp [ha]
      simp only [List.find?, hb]
      exact ih hnd.2 h

/-- C9: for an id present in the table, update_image_paths returns
true, the record reads back through get_generation_by_id with exactly
the new path list and every other field unchanged, the table keeps its
length, and every other record is still present unchanged; for an
absent id it returns false and leaves the table untouched. -/
theorem c9_update_image_paths (db : List GenRecord) (gid : Nat) (ps : List String)
    (hnd : (db.map GenRecord.id).Nodup) :
    (∀ r, r ∈ db → r.id = gid →
      (update_image_paths db gid ps).2 = true ∧
      get_generation_by_id (update_image_paths db gid ps).1 gid =
        some { r with image_paths := ps } ∧
      (update_image_paths db gid ps).1.length = db.length ∧
      (∀ r2, r2 ∈ db → r2.id ≠ gid → r2 ∈ (update_image_paths db gid ps).1)) ∧
    ((∀ r, r ∈ db → r.id ≠ gid) → update_image_paths db gid ps = (db, false)) := by
  constructor
  · intro r hr hid
    refine ⟨?_, ?_, ?_, ?_⟩
    · simp only [update_image_paths, List.any_eq_true]
      exact ⟨r, hr, by simp [hid]⟩
    · exact c9_find_helper db gid ps hnd r hr hid
    · simp [update_image_paths]
    · intro r2 hr2 hne
      simp only [update_image_paths]
      exact List.mem_map.mpr ⟨r2, hr2, by simp [hne]⟩
  · intro hall
    simp only [update_image_paths, Prod.mk.injEq]
    constructor
    · exact map_id_of_mem db _ (fun x hx => if_neg (hall x hx))
    · simp only [List.any_eq_false]
      intro x hx
      simp [hall x hx]

/-- C9 witness: the update on a concrete two-record table. -/
theorem c9_witness :
    (update_image_paths [rec_cat, rec_b] 4 ["a.jpg", "b.jpg"]).2 = true ∧
    get_generation_by_id (update_image_paths [rec_cat, rec_b] 4 ["a.jpg", "b.jpg"]).1 4 =
      some { rec_b with image_paths := ["a.jpg", "b.jpg"] } ∧
    (update_image_paths [rec_cat, rec_b] 4 ["a.jpg", "b.jpg"]).1.length =
      ([rec_cat, rec_b]).length ∧
    (∀ r2, r2 ∈ [rec_cat, rec_b] → r2.id ≠ 4 →
      r2 ∈ (update_image_paths [rec_cat, rec_b] 4 ["a.jpg", "b.jpg"]).1) :=
  (c9_update_image_paths [rec_cat, rec_b] 4 ["a.jpg", "b.jpg"] (by decide)).1 rec_b
    (by decide) (by decide)

/-- C8: after a successful start_session the editor invariant (step
counter equals history length minus one, current path is the last
history entry's path) holds; every edit attempt preserves it; and an
edit that fails — remote error, empty image list, or an exception while
saving — leaves the state completely unchanged. -/
theorem c8_editor_invariants (p prompt save_path : String) (s : EditorState)
    (res : Except String (List String)) (exc : Option String) :
    (∀ s0, start_session p true = .ok s0 → editor_inv s0) ∧
    (editor_inv s → editor_inv (apply_edit s prompt res exc save_path)) ∧
    (∀ e, res = .error e → apply_edit s prompt res exc save_path = s) ∧
    (∀ imgs, res = .ok imgs → imgs = [] → apply_edit s prompt res exc save_path = s) ∧
    (∀ imgs e2, res = .ok imgs → exc = some e2 →
      apply_edit s prompt res exc save_path = s) := by
  refine ⟨?_, ?_, ?_, ?_, ?_⟩
  · intro s0 h
    simp only [start_session, Bool.not_true, Bool.false_eq_true, if_false,
      Except.ok.injEq] at h
    subst h
    refine ⟨by simp, by simp, by simp⟩
  · intro hinv
    cases res with
    | error e => simpa [apply_edit] using hinv
    | ok imgs =>
      by_cases himgs : imgs.isEmpty
      · simpa [apply_edit, himgs] using hinv
      · cases exc with
        | some e2 => simpa [apply_edit, himgs] using hinv
        | none =>
          obtain ⟨hne, hstep, _⟩ := hinv
          have hlen : 1 ≤ s.edit_history.length := by
            cases hh : s.edit_history with
            | nil => exact absurd hh hne
            | cons a tl => simp [hh]
          have happ : apply_edit s prompt (.ok imgs) none save_path =
              { current_step := s.current_step + 1,
                current_image_path := some save_path,
                edit_history := s.edit_history ++ [(prompt, save_path)] } := by
            simp [apply_edit, himgs]
          rw [happ]
          refine ⟨by simp, ?_, ?_⟩
          · simp only [List.length_append, List.length_cons, List.length_nil]
            omega
          · simp [List.getLast?_concat]
  · intro e he
    subst he
    rfl
  · intro imgs he hempty
    subst he
    subst hempty
    rfl
  · intro imgs e2 he hexc
    subst he
    subst hexc
    by_cases himgs : imgs.isEmpty <;> simp [apply_edit, himgs]

/-- C8 witness: the invariant after one successful edit from a freshly
started session state. -/
theorem c8_editor_invariants_witness :
    editor_inv
      (apply_edit
        { current_image_path := some "a.png",
          edit_history := [("Initial image", "a.png")], current_step := 0 }
        "add a hat" (.ok ["http-url"]) none "b.png") :=
  (c8_editor_invariants "a.png" "add a hat" "b.png"
    { current_image_path := some "a.png",
      edit_history := [("Initial image", "a.png")], current_step := 0 }
    (.ok ["http-url"]) none).2.1 ⟨by simp, by simp, by simp⟩

theorem nat_floor_mul_div (a b : Nat) (hb : 0 < b) :
    Nat.floor (((a : ℚ)) / (b : ℚ)) = a / b := by
  rw [show ((a : ℚ)) = ((a : ℕ) : ℚ) by norm_num,
    show ((b : ℚ)) = ((b : ℕ) : ℚ) by norm_num,
    Nat.floor_div_nat, Nat.floor_natCast]

/-- C7 (amended): with no height supplied the ASCII fallback renders a
grid whose height is the floor (Python `int` truncation, not `round`:
see `c7_counterexample`) of width × aspect_ratio × 0.55, each row has
the target width, and the character at every cell is the one at index
floor(pixel × 9 / 255) — always within the 10-character ramp
`" .:-=+*#%@"` for 0-255 pixel values — of that ramp. -/
theorem c7_ascii_grid (resize : GrayImage → Nat → Nat → GrayImage) (img : GrayImage)
    (width : Nat) (hw : 0 < img.w)
    (hpix : ∀ x y, (resize img width (ascii_height img.w img.h width)).pix x y ≤ 255) :
    ascii_height img.w img.h width =
      Nat.floor ((width : ℚ) * ((img.h : ℚ) / (img.w : ℚ)) * (55 / 100)) ∧
    (ascii_lines resize img width none).length = ascii_height img.w img.h width ∧
    (∀ y, y < ascii_height img.w img.h width →
      ((ascii_lines resize img width none).getD y []).length = width) ∧
    (∀ x y, x < width → y < ascii_height img.w img.h width →
      Nat.floor (((resize img width (ascii_height img.w img.h width)).pix x y : ℚ)
          * 9 / 255) ≤ 9 ∧
      ((ascii_lines resize img width none).getD y []).getD x ' ' =
        (" .:-=+*#%@").toList.getD
          (Nat.floor (((resize img width (ascii_height img.w img.h width)).pix x y : ℚ)
            * 9 / 255)) ' ') := by
  have hwq : ((img.w : ℚ)) ≠ 0 := by
    exact_mod_cast hw.ne'
  have hkey : ((width : ℚ) * ((img.h : ℚ) / (img.w : ℚ)) * (55 / 100)) =
      ((width * img.h * 55 : ℕ) : ℚ) / ((img.w * 100 : ℕ) : ℚ) := by
    push_cast
    field_simp
  have hfloor_idx : ∀ p : Nat, Nat.floor (((p : ℚ)) * 9 / 255) = (p * 9) / 255 := by
    intro p
    rw [show ((p : ℚ)) * 9 = ((p * 9 : ℕ) : ℚ) by push_cast; ring,
      show ((255 : ℚ)) = ((255 : ℕ) : ℚ) by norm_num,
      Nat.floor_div_nat, Nat.floor_natCast]
  refine ⟨?_, ?_, ?_, ?_⟩
  · rw [hkey, Nat.floor_div_nat, Nat.floor_natCast]
    rfl
  · simp [ascii_lines]
  · intro y hy
    simp [ascii_lines, List.getD, List.getElem?_map, List.getElem?_range hy]
  · intro x y hx hy
    constructor
    · rw [hfloor_idx]
      calc ((resize img width (ascii_height img.w img.h width)).pix x y * 9) / 255
          ≤ (255 * 9) / 255 :=
            Nat.div_le_div_right (Nat.mul_le_mul_right 9 (hpix x y))
        _ = 9 := by norm_num
    · rw [hfloor_idx]
      have hrow : (ascii_lines resize img width none).getD y [] =
          (List.range width).map (fun x =>
            ascii_char_for ((resize img width (ascii_height img.w img.h width)).pix x y)) := by
        simp [ascii_lines, List.getD_eq_getElem?_getD, List.getElem?_map,
          List.getElem?_range hy]
      rw [hrow]
      have hcell : ((List.range width).map (fun x =>
          ascii_char_for ((resize img width (ascii_height img.w img.h width)).pix x y))).getD
            x ' ' =
          ascii_char_for ((resize img width (ascii_height img.w img.h width)).pix x y) := by
        simp [List.getD_eq_getElem?_getD, List.getElem?_map, List.getElem?_range hx]
      rw [hcell]
      rfl

/-- C7 counterexample: for a 3×1 image at width 10 the code computes
height 1 (truncation of 1.8333) while the claimed round formula gives
2, so the claimed height formula is false. -/
theorem c7_counterexample :
    ascii_height img_3x1.w img_3x1.h 10 = 1 ∧
    (round ((10 : ℚ) * ((img_3x1.h : ℚ) / (img_3x1.w : ℚ)) * (55 / 100)) : ℤ) = 2 ∧
    (ascii_lines resize_const img_3x1 10 none).length = 1 := by
  refine ⟨by decide, ?_, ?_⟩
  · show (round ((10 : ℚ) * (((1 : ℕ) : ℚ) / ((3 : ℕ) : ℚ)) * (55 / 100)) : ℤ) = 2
    push_cast
    norm_num [round_eq]
  · decide

/-- C7 witness: the amended grid characterisation at a concrete image
and resize function. -/
theorem c7_ascii_grid_witness :
    0 < img_3x1.w ∧
    (ascii_height img_3x1.w img_3x1.h 10 =
      Nat.floor ((10 : ℚ) * ((img_3x1.h : ℚ) / (img_3x1.w : ℚ)) * (55 / 100)) ∧
    (ascii_lines resize_const img_3x1 10 none).length =
      ascii_height img_3x1.w img_3x1.h 10 ∧
    (∀ y, y < ascii_height img_3x1.w img_3x1.h 10 →
      ((ascii_lines resize_const img_3x1 10 none).getD y []).length = 10) ∧
    (∀ x y, x < 10 → y < ascii_height img_3x1.w img_3x1.h 10 →
      Nat.floor (((resize_const img_3x1 10 (ascii_height img_3x1.w img_3x1.h 10)).pix
          x y : ℚ) * 9 / 255) ≤ 9 ∧
      ((ascii_lines resize_const img_3x1 10 none).getD y []).getD x ' ' =
        (" .:-=+*#%@").toList.getD
          (Nat.floor (((resize_const img_3x1 10
            (ascii_height img_3x1.w img_3x1.h 10)).pix x y : ℚ) * 9 / 255)) ' ')) :=
  ⟨by decide,
   c7_ascii_grid resize_const img_3x1 10 (by decide)
     (fun x y => by
       show (128 : Nat) ≤ 255
       decide)⟩
